import Mathlib

/-!
# gf-tracing: a verification development of the example programs

Shallow embedding of the three programs of the repository

* `grpc+db+redis+log/server/main.go`  (namespace `GrpcServer`)
* `http/client/main.go`               (namespace `HttpClient`)
* `examples/http/client/main.go`      (namespace `ExamplesHttpClient`)

Go values are modelled as follows: `int32`/`int64` are integers carrying their
range, a Go `error` is `Option GoError` (`none` is `nil`), a Go pointer result
`*T` is `Option T` (`none` is `nil`), a multi-value return is a product.
-/

/-! ## Go base types -/

/-- A Go `int32` value. -/
structure GoInt32 where
  val : Int
  lo : -2147483648 ≤ val
  hi : val ≤ 2147483647
deriving DecidableEq

/-- A Go `int64` value. -/
structure GoInt64 where
  val : Int
  lo : -9223372036854775808 ≤ val
  hi : val ≤ 9223372036854775807
deriving DecidableEq

/-- The Go conversion `int32(x)` of an `int64`: keep the low 32 bits and read
them as a two's complement number. -/
def GoInt64.toInt32 (x : GoInt64) : GoInt32 :=
  ⟨if x.val % 4294967296 < 2147483648 then x.val % 4294967296
    else x.val % 4294967296 - 4294967296,
   by split <;> omega, by split <;> omega⟩

/-- A non-nil Go `error` value. -/
structure GoError where
  msg : String
deriving DecidableEq

/-- Nanoseconds in `time.Second` (a `time.Duration` counts nanoseconds). -/
def time.Second : Int := 1000000000

/-! ## `fmt.Sprintf` restricted to literal text and the `%d` verb -/

namespace fmt

/-- The digit loop of `fmt.fmtInteger` for base 10: digits are written from the
end of the buffer towards its front,
`for u >= 10 { next := u / 10; buf[i] = '0' + u - next*10; u = next }`,
followed by `buf[i] = digits[u]`. -/
def fmtUnsigned (u : Nat) (buf : List Char) : List Char :=
  if h : 10 ≤ u then
    fmtUnsigned (u / 10) (Char.ofNat (48 + (u - u / 10 * 10)) :: buf)
  else
    Char.ofNat (48 + u) :: buf
termination_by u
decreasing_by omega

/-- The signed decimal case of `fmt.fmtInteger`: `negative := v < 0`, the
magnitude is rendered by the digit loop and a `-` is put in front of it when
`negative`. -/
def fmtInteger (v : Int) : List Char :=
  if v < 0 then '-' :: fmtUnsigned v.natAbs [] else fmtUnsigned v.natAbs []

/-- The format loop of `fmt.Sprintf`: literal characters are copied, each `%d`
consumes the next operand; a `%d` without operand prints `%!d(MISSING)`. -/
def doPrintf : List Char → List Int → List Char
  | [], _ => []
  | '%' :: 'd' :: rest, a :: args => fmtInteger a ++ doPrintf rest args
  | '%' :: 'd' :: rest, [] => "%!d(MISSING)".data ++ doPrintf rest []
  | c :: rest, args => c :: doPrintf rest args

/-- The number a string of decimal digits denotes, read front to back (the
inverse of the digit loop; used to state that distinct numbers render
differently). -/
def decimalValue (digits : List Char) : Nat :=
  digits.foldl (fun acc c => 10 * acc + (c.toNat - 48)) 0

/-- The call `fmt.Sprintf(format, args...)` with integer operands. -/
def Sprintf (format : String) (args : List Int) : String :=
  String.mk (doPrintf format.data args)

end fmt

/-! ## The execution context (`context.Context`) and spans -/

/-- A span as the tracer hands it out (spec section 3): identifiers, sampling
flag and operation name. -/
structure Span where
  traceId : Nat
  spanId : Nat
  parentSpanId : Option Nat
  sampled : Bool
  operationName : String
deriving DecidableEq

/-- A Go `context.Context` as far as the programs use it: the active span, the
baggage set, the deadline (clock value in nanoseconds) and the identifiers of
the cancel functions that cancel it. -/
structure Context where
  span : Option Span
  baggage : List (String × String)
  deadline : Option Nat
  scopes : List Nat
deriving DecidableEq

/-- The value `context.Background()`. -/
def context.Background : Context := ⟨none, [], none, []⟩

/-! ## The gRPC server program -/

namespace GrpcServer

/-- Message `user.InsertReq`; the handler reads `Name`. -/
structure InsertReq where
  Name : String
deriving DecidableEq

/-- Message `user.InsertRes`; the handler writes `Id`. -/
structure InsertRes where
  Id : GoInt32
deriving DecidableEq

/-- Message `user.QueryReq`. -/
structure QueryReq where
  Id : GoInt32
deriving DecidableEq

/-- Message `user.QueryRes`: the columns `Scan` fills in. -/
structure QueryRes where
  columns : List (String × String)
deriving DecidableEq

/-- Message `user.DeleteReq`. -/
structure DeleteReq where
  Id : GoInt32
deriving DecidableEq

/-- Message `user.DeleteRes` (the handler sets no field). -/
structure DeleteRes where
deriving DecidableEq

/-- A `sql.Result` as the handler reads it: the two return values
`(int64, error)` of `LastInsertId()`. -/
structure SqlResult where
  lastInsertId : GoInt64
  lastInsertIdErr : Option GoError
deriving DecidableEq

/-- Method `LastInsertId()` of a `sql.Result`. -/
def SqlResult.LastInsertId (r : SqlResult) : GoInt64 × Option GoError :=
  (r.lastInsertId, r.lastInsertIdErr)

/-- The query builder value that `g.Table(..).Ctx(..).Cache(..).WherePri(..)`
accumulates. A builder on which `Cache` was not called has no cache option. -/
structure Model where
  table : String
  ctx : Option Context
  cache : Option (Int × String)
  wherePri : Option GoInt32
deriving DecidableEq

/-- The call `g.Table(name)`. -/
def Table (name : String) : Model := ⟨name, none, none, none⟩

/-- The call `m.Ctx(ctx)`. -/
def Model.Ctx (m : Model) (ctx : Context) : Model := { m with ctx := some ctx }

/-- The call `m.Cache(duration, name)`. -/
def Model.Cache (m : Model) (duration : Int) (name : String) : Model :=
  { m with cache := some (duration, name) }

/-- The call `m.WherePri(id)`. -/
def Model.WherePri (m : Model) (id : GoInt32) : Model := { m with wherePri := some id }

/-- The database behind `g.Table`: the three operations the handlers finish
their builder chains with. `Scan` receives the destination and returns it as
it is after the call. -/
structure Database where
  Insert : Model → List (String × String) → Except GoError SqlResult
  Scan : Model → QueryRes → QueryRes × Option GoError
  Delete : Model → Except GoError SqlResult

/-- The receiver type `server`. -/
structure server where
deriving DecidableEq

/-- Method `userCacheKey`. -/
def server.userCacheKey (_s : server) (id : GoInt32) : String :=
  fmt.Sprintf "userInfo:%d" [id.val]

/-- Handler `Insert`. -/
def server.Insert (_s : server) (db : Database) (ctx : Context) (req : InsertReq) :
    Option InsertRes × Option GoError :=
  match db.Insert ((Table "user").Ctx ctx) [("name", req.Name)] with
  | .error err => (none, some err)
  | .ok result =>
    let id := result.LastInsertId.1
    (some ⟨id.toInt32⟩, none)

/-- The builder chain of `Query` up to `WherePri`. -/
def server.QueryModel (s : server) (ctx : Context) (req : QueryReq) : Model :=
  (((Table "user").Ctx ctx).Cache (5 * time.Second) (s.userCacheKey req.Id)).WherePri req.Id

/-- Handler `Query`. -/
def server.Query (s : server) (db : Database) (ctx : Context) (req : QueryReq) :
    Option QueryRes × Option GoError :=
  match db.Scan (s.QueryModel ctx req) ⟨[]⟩ with
  | (_, some err) => (none, some err)
  | (res, none) => (some res, none)

/-- The builder chain of `Delete` up to `WherePri`. -/
def server.DeleteModel (s : server) (ctx : Context) (req : DeleteReq) : Model :=
  (((Table "user").Ctx ctx).Cache (-1) (s.userCacheKey req.Id)).WherePri req.Id

/-- Handler `Delete`. -/
def server.Delete (s : server) (db : Database) (ctx : Context) (req : DeleteReq) :
    Option DeleteRes × Option GoError :=
  match db.Delete (s.DeleteModel ctx req) with
  | .error err => (none, some err)
  | .ok _ => (some ⟨⟩, none)

/-- A database on which every statement succeeds and `LastInsertId()` returns
the pair `(value, err)`. -/
def sampleDatabase (value : GoInt64) (err : Option GoError) : Database :=
  ⟨fun _ _ => .ok ⟨value, err⟩,
   fun _ res => (⟨("name", "john") :: res.columns⟩, none),
   fun _ => .ok ⟨⟨0, by decide, by decide⟩, none⟩⟩

/-- A database on which every statement fails with the error `err`. -/
def failingDatabase (err : GoError) : Database :=
  ⟨fun _ _ => .error err, fun _ res => (res, some err), fun _ => .error err⟩

end GrpcServer

/-! ## The interceptor chain of the gRPC server -/

namespace grpc

/-- Type `grpc.UnaryHandler`, `func(ctx, req) (resp, err)`. -/
abbrev UnaryHandler (Req Resp : Type) : Type := Context → Req → Resp × Option GoError

/-- Type `grpc.UnaryServerInterceptor`, `func(ctx, req, info, handler) (resp, err)`. -/
abbrev UnaryServerInterceptor (Req Resp Info : Type) : Type :=
  Context → Req → Info → UnaryHandler Req Resp → Resp × Option GoError

/-- Modelled from the spec: the registration of an ordered list of wrapper
stages (the library function behind `grpc.ChainUnaryInterceptor`, not part of
the repository). The stages are applied outer-to-inner: the handler a stage
receives runs the stages after it and then the final handler. -/
def getChainUnaryHandler {Req Resp Info : Type} :
    List (UnaryServerInterceptor Req Resp Info) → Info → UnaryHandler Req Resp →
      UnaryHandler Req Resp
  | [], _, finalHandler => finalHandler
  | stage :: rest, info, finalHandler =>
    fun ctx req => stage ctx req info (getChainUnaryHandler rest info finalHandler)

/-- Modelled from the spec: `grpc.ChainUnaryInterceptor(stages...)`, the single
interceptor the server runs for every unary call. -/
def ChainUnaryInterceptor {Req Resp Info : Type}
    (stages : List (UnaryServerInterceptor Req Resp Info)) :
    UnaryServerInterceptor Req Resp Info :=
  fun ctx req info handler => getChainUnaryHandler stages info handler ctx req

end grpc

namespace GrpcServer

/-- The four interceptors of `krpc.Server` that `main` names; their bodies are
library code and stay abstract. -/
structure KrpcServer (Req Resp Info : Type) where
  UnaryError : grpc.UnaryServerInterceptor Req Resp Info
  UnaryRecover : grpc.UnaryServerInterceptor Req Resp Info
  UnaryTracing : grpc.UnaryServerInterceptor Req Resp Info
  UnaryValidate : grpc.UnaryServerInterceptor Req Resp Info

/-- The argument list of `grpc.ChainUnaryInterceptor` in `main`, in source order. -/
def main.interceptors {Req Resp Info : Type} (krpc : KrpcServer Req Resp Info) :
    List (grpc.UnaryServerInterceptor Req Resp Info) :=
  [krpc.UnaryError, krpc.UnaryRecover, krpc.UnaryTracing, krpc.UnaryValidate]

/-- The handler the server built in `main` runs for a registered handler `h`. -/
def main.effectiveHandler {Req Resp Info : Type} (krpc : KrpcServer Req Resp Info)
    (info : Info) (h : grpc.UnaryHandler Req Resp) : grpc.UnaryHandler Req Resp :=
  fun ctx req => grpc.ChainUnaryInterceptor (main.interceptors krpc) ctx req info h

/-- One wrapper stage applied to a handler. -/
def wrap {Req Resp Info : Type} (stage : grpc.UnaryServerInterceptor Req Resp Info)
    (info : Info) (h : grpc.UnaryHandler Req Resp) : grpc.UnaryHandler Req Resp :=
  fun ctx req => stage ctx req info h

end GrpcServer

/-! ## Go control flow with effects: the world, panics, exit, deferred calls -/

/-- What a finished outbound HTTP call did. -/
inductive HttpOutcome where
  | response (content : String)
  | failure (err : GoError)
  | panics (msg : String)
deriving DecidableEq

/-- The observable steps of a run, in the order they happen. -/
inductive Event where
  | spanStart (span : Span)
  | spanEnd (span : Span)
  | httpGet (ctx : Context) (url : String)
  | httpDone (outcome : HttpOutcome)
  | logPrint (ctx : Context) (content : String)
  | initJaeger (serviceName : String) (endpoint : String)
  | shutdownCall (ctx : Context) (time : Nat) (done : Bool)
  | shutdownReturn (time : Nat)
  | cancel (scope : Nat)
  | fatal (err : GoError)
deriving DecidableEq

/-- The state a run threads through: the clock in nanoseconds, the next fresh
identifier, the cancel functions called so far and the events so far. -/
structure World where
  now : Nat
  nextId : Nat
  cancelled : List Nat
  log : List Event
deriving DecidableEq

/-- How a Go call ends: it returns, it panics, or the process exits
(`os.Exit`, which runs no deferred call). -/
inductive Result (α : Type) where
  | ok (a : α)
  | panic (msg : String)
  | exit (code : Nat)
deriving DecidableEq

/-- A Go computation with effects on the world. -/
def Go (α : Type) : Type := World → Result α × World

/-- Return without effect. -/
def Go.pure {α : Type} (a : α) : Go α := fun w => (.ok a, w)

/-- Sequencing: a panic or an exit of the first statement skips the rest. -/
def Go.bind {α β : Type} (m : Go α) (f : α → Go β) : Go β := fun w =>
  match m w with
  | (.ok a, w1) => f a w1
  | (.panic msg, w1) => (.panic msg, w1)
  | (.exit code, w1) => (.exit code, w1)

instance : Monad Go where
  pure := Go.pure
  bind := Go.bind

/-- The statement `defer d()` followed by the rest `body` of the function: `d`
runs when `body` returns and when it panics (the panic goes on afterwards), and
does not run when the process exits. -/
def Go.withDefer {α : Type} (d : Go Unit) (body : Go α) : Go α := fun w =>
  match body w with
  | (.ok a, w1) =>
    match d w1 with
    | (.ok _, w2) => (.ok a, w2)
    | (.panic msg, w2) => (.panic msg, w2)
    | (.exit code, w2) => (.exit code, w2)
  | (.panic msg, w1) =>
    match d w1 with
    | (.ok _, w2) => (.panic msg, w2)
    | (.panic later, w2) => (.panic later, w2)
    | (.exit code, w2) => (.exit code, w2)
  | (.exit code, w1) => (.exit code, w1)

/-- Record one event. -/
def emit (e : Event) : Go Unit := fun w => (.ok (), { w with log := w.log ++ [e] })

/-- The events a computation adds to the log of the world it starts in. -/
def eventsOf {α : Type} (m : Go α) (w : World) : List Event :=
  (m w).2.log.drop w.log.length

/-- The behaviour of everything outside the repository during one run. -/
structure Env where
  sampled : Bool
  getContent : Context → String → HttpOutcome
  getContentTime : Nat
  printPanics : Option String
  initJaegerErr : Option GoError
  flushTime : Nat
  shutdownErr : Option GoError

/-- Whether a context is done in a world: one of its cancel functions was
called or its deadline has passed. -/
def Context.done (ctx : Context) (w : World) : Bool :=
  ctx.scopes.any (fun scope => decide (scope ∈ w.cancelled))
    || (match ctx.deadline with
        | some d => decide (d ≤ w.now)
        | none => false)

/-- A `context.CancelFunc`, named by the scope it cancels. -/
structure CancelFunc where
  scope : Nat
deriving DecidableEq

/-- Calling a cancel function. -/
def CancelFunc.call (cancel : CancelFunc) : Go Unit := fun w =>
  (.ok (), { w with cancelled := cancel.scope :: w.cancelled,
                    log := w.log ++ [.cancel cancel.scope] })

/-- The call `context.WithCancel(parent)`. -/
def context.WithCancel (parent : Context) : Go (Context × CancelFunc) := fun w =>
  (.ok ({ parent with scopes := w.nextId :: parent.scopes }, ⟨w.nextId⟩),
   { w with nextId := w.nextId + 1 })

/-- The call `context.WithTimeout(parent, d)`: the deadline is `d` after the
current clock value, unless the parent's deadline is earlier. -/
def context.WithTimeout (parent : Context) (d : Int) : Go (Context × CancelFunc) := fun w =>
  let own := w.now + d.toNat
  let deadline := match parent.deadline with
    | some p => min p own
    | none => own
  (.ok ({ parent with deadline := some deadline, scopes := w.nextId :: parent.scopes },
        ⟨w.nextId⟩),
   { w with nextId := w.nextId + 1 })

/-! ## Baggage and the tracer -/

/-- Modelled from the spec: setting a baggage key (section 3: keys are unique,
setting an existing key replaces its value, the mapping is ordered). -/
def Baggage.set : List (String × String) → String → String → List (String × String)
  | [], key, value => [(key, value)]
  | (k, v) :: rest, key, value =>
    if k = key then (key, value) :: rest else (k, v) :: Baggage.set rest key value

/-- Looking a baggage key up. -/
def Baggage.get : List (String × String) → String → Option String
  | [], _ => none
  | (k, v) :: rest, key => if k = key then some v else Baggage.get rest key

namespace gtrace

/-- Modelled from the spec: the span `Tracer.StartSpan` creates (section 4.2).
With an active span in `ctx` the new span inherits its trace id and sampling
decision and has it as parent; otherwise a fresh trace id is generated and the
span is a root. `fresh` is the next unused identifier. -/
def Tracer.newSpan (env : Env) (ctx : Context) (spanName : String) (fresh : Nat) : Span :=
  match ctx.span with
  | some parent => ⟨parent.traceId, fresh, some parent.spanId, parent.sampled, spanName⟩
  | none => ⟨fresh + 1, fresh, none, env.sampled, spanName⟩

/-- Modelled from the spec: `Tracer.StartSpan` (section 4.2, library code
behind `gtrace.Tracer().Start`). The returned context carries the new span as
active span. -/
def Tracer.Start (env : Env) (ctx : Context) (spanName : String) : Go (Context × Span) :=
  fun w =>
    (.ok ({ ctx with span := some (Tracer.newSpan env ctx spanName w.nextId) },
          Tracer.newSpan env ctx spanName w.nextId),
     { w with nextId := w.nextId + 2,
              log := w.log ++ [.spanStart (Tracer.newSpan env ctx spanName w.nextId)] })

/-- The call `gtrace.NewSpan(ctx, spanName)`, which starts a span on the tracer. -/
def NewSpan (env : Env) (ctx : Context) (spanName : String) : Go (Context × Span) :=
  Tracer.Start env ctx spanName

/-- The call `span.End()`; every call is recorded. -/
def Span.End (span : Span) : Go Unit := emit (.spanEnd span)

/-- The call `gtrace.SetBaggageValue(ctx, key, value)`. -/
def SetBaggageValue (ctx : Context) (key value : String) : Context :=
  { ctx with baggage := Baggage.set ctx.baggage key value }

end gtrace

/-- The value `label.String(key, value)`. -/
def label.String (key value : String) : String × String := (key, value)

/-- The call `baggage.ContextWithValues(ctx, keyValues...)`. -/
def baggage.ContextWithValues (ctx : Context) (keyValues : List (String × String)) : Context :=
  { ctx with baggage := keyValues.foldl (fun b kv => Baggage.set b kv.1 kv.2) ctx.baggage }

/-! ## The HTTP client and the logger, as the programs call them -/

/-- The call `client.Ctx(ctx).GetContent(url)` on the client with the tracing
middleware: the call is recorded with the context it was given, blocks for the
time the environment says and returns the body, the empty string when the
request failed; the environment may make it panic. -/
def Client.GetContent (env : Env) (ctx : Context) (url : String) : Go String := fun w =>
  let w1 : World :=
    { w with now := w.now + env.getContentTime,
             log := w.log ++ [.httpGet ctx url, .httpDone (env.getContent ctx url)] }
  match env.getContent ctx url with
  | .response content => (.ok content, w1)
  | .failure _ => (.ok "", w1)
  | .panics msg => (.panic msg, w1)

/-- The call `g.Log().Ctx(ctx).Print(content)`. -/
def Log.Print (env : Env) (ctx : Context) (content : String) : Go Unit := fun w =>
  match env.printPanics with
  | none => (.ok (), { w with log := w.log ++ [.logPrint ctx content] })
  | some msg => (.panic msg, w)

/-- The call `g.Log().Ctx(ctx).Fatal(err)`: the error is logged and the process
exits with status 1. -/
def Log.Fatal (err : GoError) : Go Unit := fun w =>
  (.exit 1, { w with log := w.log ++ [.fatal err] })

/-! ## Program `http/client` -/

namespace HttpClient

/-- Function `StartRequests`. -/
def StartRequests (env : Env) : Go Unit := do
  let (ctx, span) ← gtrace.Tracer.Start env context.Background "StartRequests"
  Go.withDefer (gtrace.Span.End span) (do
    let ctx := baggage.ContextWithValues ctx [label.String "name" "john"]
    let content ← Client.GetContent env ctx "http://127.0.0.1:8199/hello"
    Log.Print env ctx content)

end HttpClient

/-! ## Program `examples/http/client` -/

namespace ExamplesHttpClient

/-- Constant `ServiceName`. -/
def ServiceName : String := "tracing-http-client"

/-- Constant `JaegerUdpEndpoint`. -/
def JaegerUdpEndpoint : String := "localhost:6831"

/-- Function `StartRequests`. -/
def StartRequests (env : Env) (ctx : Context) : Go Unit := do
  let (ctx, span) ← gtrace.NewSpan env ctx "StartRequests"
  Go.withDefer (gtrace.Span.End span) (do
    let ctx := gtrace.SetBaggageValue ctx "name" "john"
    let content ← Client.GetContent env ctx "http://127.0.0.1:8199/hello"
    Log.Print env ctx content)

/-- The provider `tracing.InitJaeger` returns; the programs only shut it down. -/
structure TracerProvider where
  serviceName : String
  endpoint : String
deriving DecidableEq

/-- Modelled from the spec: `tracing.InitJaeger(serviceName, endpoint)`, a
function of the repository whose file is not among the sources. It returns a
provider, or an error for a bad configuration (section 7). -/
def tracing.InitJaeger (env : Env) (serviceName endpoint : String) :
    Go (TracerProvider × Option GoError) := fun w =>
  (.ok (⟨serviceName, endpoint⟩, env.initJaegerErr),
   { w with log := w.log ++ [.initJaeger serviceName endpoint] })

/-- Modelled from the spec: `Shutdown(deadline)` of the provider (section 4.3):
it performs the final flush and blocks the caller only until the earlier of
(all buffered spans sent) and (deadline elapsed). The call and the return are
recorded with the clock value, the call also with whether its context was
already done. -/
def TracerProvider.Shutdown (env : Env) (_tp : TracerProvider) (ctx : Context) :
    Go (Option GoError) := fun w =>
  let sent := w.now + env.flushTime
  let back := match ctx.deadline with
    | some d => min sent (max d w.now)
    | none => sent
  (.ok env.shutdownErr,
   { w with now := back,
            log := w.log ++ [.shutdownCall ctx w.now (ctx.done w), .shutdownReturn back] })

/-- The deferred function literal of `main`, called with the `ctx` of `main`.
The assignment `ctx, cancel = context.WithTimeout(..)` writes the parameter
`ctx` and the variable `cancel` of `main`; the `defer cancel()` that follows
it reads the new value. -/
def main.cleanup (env : Env) (tp : TracerProvider) (ctx : Context) : Go Unit := do
  let (ctx, cancel) ← context.WithTimeout ctx (time.Second * 5)
  Go.withDefer cancel.call (do
    let err ← TracerProvider.Shutdown env tp ctx
    match err with
    | some e => Log.Fatal e
    | none => pure ())

/-- Function `main`. The first `defer cancel()` has taken the value of `cancel`
when it was executed, the cancel function of `context.WithCancel`. -/
def main (env : Env) : Go Unit := do
  let (ctx, cancel) ← context.WithCancel context.Background
  Go.withDefer cancel.call (do
    let (tp, err) ← tracing.InitJaeger env ServiceName JaegerUdpEndpoint
    match err with
    | some e => Log.Fatal e
    | none =>
      Go.withDefer (main.cleanup env tp ctx) (StartRequests env ctx))

end ExamplesHttpClient

/-- A run of `main` to evaluate: the GET answers after 7 ns, sending the
buffered spans would take 9 seconds, nothing fails. -/
def ExamplesHttpClient.sampleEnv : Env :=
  ⟨true, fun _ _ => .response "hello", 7, none, none, 9000000000, none⟩

/-- The world at process start: clock 0, no identifier used, nothing cancelled,
no event. -/
def World.start : World := ⟨0, 0, [], []⟩

/-! ## The propagator (spec sections 3, 4.1 and 6) -/

namespace Propagator

/-- Modelled from the spec: the `SpanContext` of section 3, an identifier bundle
of trace id (128 bit), span id (64 bit), optional parent span id, sampling flag
and baggage (an ordered mapping of string to string). The propagator is library
code outside the repository. -/
structure SpanContext where
  traceId : Nat
  spanId : Nat
  parentSpanId : Option Nat
  sampled : Bool
  baggage : List (String × String)
deriving DecidableEq

/-- Modelled from the spec: a valid context has a trace id of 128 bits, a span
id of 64 bits and unique baggage keys (section 3). -/
def SpanContext.Valid (c : SpanContext) : Prop :=
  c.traceId < 2 ^ 128 ∧ c.spanId < 2 ^ 64 ∧ (c.baggage.map Prod.fst).Nodup

/-- Modelled from the spec: the `Carrier` of section 3, a flat mapping of
string to string, kept in insertion order. -/
abbrev Carrier : Type := List (String × String)

/-- Writing a carrier key: an existing key gets the new value, a new key is
added at the end. -/
def Carrier.set : Carrier → String → String → Carrier
  | [], key, value => [(key, value)]
  | (k, v) :: rest, key, value =>
    if k = key then (key, value) :: rest else (k, v) :: Carrier.set rest key value

/-- Reading a carrier key. -/
def Carrier.get : Carrier → String → Option String
  | [], _ => none
  | (k, v) :: rest, key => if k = key then some v else Carrier.get rest key

/-- The carrier key of the trace id. -/
def traceIdKey : String := "trace-id"

/-- The carrier key of the span id. -/
def spanIdKey : String := "span-id"

/-- The carrier key of the sampled flag. -/
def sampledKey : String := "sampled"

/-- The reserved text every baggage key starts with in the carrier. -/
def baggageMark : String := "baggage-"

/-- The hexadecimal digit of a number below 16. -/
def hexDigit (d : Nat) : Char :=
  if d < 10 then Char.ofNat (48 + d) else Char.ofNat (87 + d)

/-- The value of a hexadecimal digit, `none` for any other character. -/
def hexValue (ch : Char) : Option Nat :=
  if 48 ≤ ch.toNat ∧ ch.toNat ≤ 57 then some (ch.toNat - 48)
  else if 97 ≤ ch.toNat ∧ ch.toNat ≤ 102 then some (ch.toNat - 87)
  else none

/-- The number `n` as exactly `width` hexadecimal digits, most significant
first (section 6: 32 characters for a trace id, 16 for a span id). -/
def hexEncode : Nat → Nat → List Char
  | 0, _ => []
  | width + 1, n => hexEncode width (n / 16) ++ [hexDigit (n % 16)]

/-- Reading hexadecimal digits front to back; `none` when a character is not a
hexadecimal digit. -/
def hexDecodeFrom : List Char → Nat → Option Nat
  | [], acc => some acc
  | ch :: rest, acc =>
    match hexValue ch with
    | some d => hexDecodeFrom rest (16 * acc + d)
    | none => none

/-- Reading an identifier of exactly `width` hexadecimal digits; a value of
another length or with another character is malformed (section 4.1). -/
def hexDecode (width : Nat) (text : List Char) : Option Nat :=
  if text.length = width then hexDecodeFrom text 0 else none

/-- The sampled flag on the wire, `"1"` or `"0"` (section 6). -/
def encodeSampled (sampled : Bool) : String := if sampled then "1" else "0"

/-- Reading the sampled flag; any other text is malformed. -/
def decodeSampled (text : String) : Option Bool :=
  if text = "1" then some true else if text = "0" then some false else none

/-- What is left of `text` after the leading `mark`, `none` when `text` does
not start with `mark`. -/
def stripMark : List Char → List Char → Option (List Char)
  | [], text => some text
  | _ :: _, [] => none
  | m :: mark, ch :: text => if m = ch then stripMark mark text else none

/-- Modelled from the spec: `Inject` (sections 4.1, 6), a total pure function
that writes one key for the trace id, one for the span id, one for the sampled
flag and one key with the reserved mark per baggage item. -/
def Inject (c : SpanContext) : Carrier :=
  c.baggage.foldl (fun carrier kv => Carrier.set carrier (baggageMark ++ kv.1) kv.2)
    (Carrier.set
      (Carrier.set
        (Carrier.set [] traceIdKey (String.mk (hexEncode 32 c.traceId)))
        spanIdKey (String.mk (hexEncode 16 c.spanId)))
      sampledKey (encodeSampled c.sampled))

/-- The baggage items of a carrier: its entries whose key starts with the
reserved mark, in carrier order, with the mark taken off. -/
def baggageOf (carrier : Carrier) : List (String × String) :=
  carrier.filterMap (fun kv =>
    match stripMark baggageMark.data kv.1.data with
    | some key => some (String.mk key, kv.2)
    | none => none)

/-- Modelled from the spec: `Extract` (section 4.1), a pure function that
returns no context (`ok = false`) when a trace key is missing or malformed, and
never fails otherwise. The parent span id is not on the wire. -/
def Extract (carrier : Carrier) : Option SpanContext :=
  match Carrier.get carrier traceIdKey, Carrier.get carrier spanIdKey,
      Carrier.get carrier sampledKey with
  | some t, some s, some f =>
    match hexDecode 32 t.data, hexDecode 16 s.data, decodeSampled f with
    | some traceId, some spanId, some sampled =>
      some ⟨traceId, spanId, none, sampled, baggageOf carrier⟩
    | _, _, _ => none
  | _, _, _ => none

/-- A context to evaluate the propagator on. -/
def sampleContext : SpanContext :=
  ⟨0x4bf92f3577b34da6a3ce929d0e0e4736, 0x00f067aa0ba902b7, some 7, true,
   [("name", "john"), ("tenant", "acme")]⟩

end Propagator

/-! ## Theorems -/

/-! ### Decimal rendering -/

theorem fmt.digit_eq_digitChar (d : Nat) (h : d < 10) :
    Char.ofNat (48 + d) = Nat.digitChar d := by
  interval_cases d <;> rfl

theorem fmt.toDigitsCore_eq_fmtUnsigned (fuel : Nat) :
    ∀ (u : Nat) (buf : List Char), u < fuel →
      Nat.toDigitsCore 10 fuel u buf = fmt.fmtUnsigned u buf := by
  induction fuel with
  | zero => intro u buf h; omega
  | succ f ih =>
    intro u buf h
    rw [fmt.fmtUnsigned]
    simp only [Nat.toDigitsCore]
    by_cases h10 : 10 ≤ u
    · have hne : ¬ (u / 10 = 0) := by omega
      have hmod : u - u / 10 * 10 = u % 10 := by omega
      rw [if_neg hne, dif_pos h10, hmod, fmt.digit_eq_digitChar _ (Nat.mod_lt _ (by decide))]
      exact ih _ _ (by omega)
    · have he : u / 10 = 0 := by omega
      have hmod : u % 10 = u := by omega
      rw [if_pos he, dif_neg h10, hmod, fmt.digit_eq_digitChar _ (by omega)]

theorem fmt.fmtUnsigned_eq_toDigits (u : Nat) :
    fmt.fmtUnsigned u [] = Nat.toDigits 10 u := by
  rw [Nat.toDigits, fmt.toDigitsCore_eq_fmtUnsigned (u + 1) u [] (by omega)]

theorem fmt.digit_toNat (d : Nat) (h : d < 10) : (Char.ofNat (48 + d)).toNat - 48 = d := by
  interval_cases d <;> rfl

theorem fmt.digit_ne_minus (d : Nat) (h : d < 10) : Char.ofNat (48 + d) ≠ '-' := by
  interval_cases d <;> decide

theorem fmt.foldl_fmtUnsigned (u : Nat) :
    ∀ buf : List Char,
      (fmt.fmtUnsigned u buf).foldl (fun acc c => 10 * acc + (c.toNat - 48)) 0
        = buf.foldl (fun acc c => 10 * acc + (c.toNat - 48)) u := by
  induction u using Nat.strong_induction_on with
  | _ u ih =>
    intro buf
    rw [fmt.fmtUnsigned]
    by_cases h10 : 10 ≤ u
    · rw [dif_pos h10, ih (u / 10) (by omega)]
      simp only [List.foldl_cons]
      rw [fmt.digit_toNat _ (by omega)]
      congr 1
      omega
    · rw [dif_neg h10]
      simp only [List.foldl_cons]
      rw [fmt.digit_toNat _ (by omega)]
      simp

theorem fmt.decimalValue_fmtUnsigned (u : Nat) :
    fmt.decimalValue (fmt.fmtUnsigned u []) = u := by
  unfold fmt.decimalValue
  rw [fmt.foldl_fmtUnsigned]
  rfl

theorem fmt.fmtUnsigned_head (u : Nat) :
    ∀ buf : List Char, ∃ d rest, d < 10 ∧ fmt.fmtUnsigned u buf = Char.ofNat (48 + d) :: rest := by
  induction u using Nat.strong_induction_on with
  | _ u ih =>
    intro buf
    rw [fmt.fmtUnsigned]
    by_cases h10 : 10 ≤ u
    · rw [dif_pos h10]
      exact ih (u / 10) (by omega) _
    · rw [dif_neg h10]
      exact ⟨u, buf, by omega, rfl⟩

theorem fmt.fmtInteger_injective (a b : Int) (h : fmt.fmtInteger a = fmt.fmtInteger b) :
    a = b := by
  unfold fmt.fmtInteger at h
  obtain ⟨da, ra, hda, ea⟩ := fmt.fmtUnsigned_head a.natAbs []
  obtain ⟨db, rb, hdb, eb⟩ := fmt.fmtUnsigned_head b.natAbs []
  by_cases ha : a < 0 <;> by_cases hb : b < 0
  · rw [if_pos ha, if_pos hb] at h
    have h2 := congrArg fmt.decimalValue (List.cons.inj h).2
    rw [fmt.decimalValue_fmtUnsigned, fmt.decimalValue_fmtUnsigned] at h2
    omega
  · rw [if_pos ha, if_neg hb, eb] at h
    exact absurd (List.cons.inj h).1.symm (fmt.digit_ne_minus db hdb)
  · rw [if_neg ha, if_pos hb, ea] at h
    exact absurd (List.cons.inj h).1 (fmt.digit_ne_minus da hda)
  · rw [if_neg ha, if_neg hb] at h
    have h2 := congrArg fmt.decimalValue h
    rw [fmt.decimalValue_fmtUnsigned, fmt.decimalValue_fmtUnsigned] at h2
    omega

theorem GrpcServer.userCacheKey_data (s : GrpcServer.server) (id : GoInt32) :
    (s.userCacheKey id).data = "userInfo:".data ++ fmt.fmtInteger id.val := by
  simp [GrpcServer.server.userCacheKey, fmt.Sprintf, fmt.doPrintf]

/-- C3: `userCacheKey` returns the text `userInfo:` followed by the base-10
rendering of the id, with a leading `-` exactly for negative ids; the result
does not depend on the receiver, and the function is pure, so equal ids give
equal keys. -/
theorem GrpcServer.userCacheKey_is_prefixed_decimal (s t : GrpcServer.server) (id : GoInt32) :
    s.userCacheKey id
        = "userInfo:" ++ (if id.val < 0 then "-" ++ Nat.repr id.val.natAbs
                          else Nat.repr id.val.natAbs)
      ∧ s.userCacheKey id = t.userCacheKey id := by
  refine ⟨?_, rfl⟩
  apply String.ext
  rw [GrpcServer.userCacheKey_data, String.data_append]
  congr 1
  unfold fmt.fmtInteger
  split
  · rw [String.data_append, fmt.fmtUnsigned_eq_toDigits]
    rfl
  · rw [fmt.fmtUnsigned_eq_toDigits]
    rfl

/-- C9: `userCacheKey` is injective on `int32` ids: equal keys come from equal
ids. -/
theorem GrpcServer.userCacheKey_injective (s : GrpcServer.server) (a b : GoInt32) :
    s.userCacheKey a = s.userCacheKey b → a = b := by
  intro h
  have hd := congrArg String.data h
  rw [GrpcServer.userCacheKey_data, GrpcServer.userCacheKey_data] at hd
  have hv := fmt.fmtInteger_injective _ _ (List.append_cancel_left hd)
  cases a
  cases b
  simp only [GoInt32.mk.injEq]
  exact hv

/-- C9, checked on concrete ids: the hypothesis holds for the id 7 with itself,
and the ids 1 and 2 get different keys. -/
theorem GrpcServer.userCacheKey_injective_witness :
    (GrpcServer.server.mk.userCacheKey ⟨7, by decide, by decide⟩
        = GrpcServer.server.mk.userCacheKey ⟨7, by decide, by decide⟩
      ∧ (⟨7, by decide, by decide⟩ : GoInt32) = ⟨7, by decide, by decide⟩)
    ∧ GrpcServer.server.mk.userCacheKey ⟨1, by decide, by decide⟩
        ≠ GrpcServer.server.mk.userCacheKey ⟨2, by decide, by decide⟩ :=
  ⟨⟨rfl, GrpcServer.userCacheKey_injective GrpcServer.server.mk _ _ rfl⟩,
   fun h => absurd (GrpcServer.userCacheKey_injective _ _ _ h) (by decide)⟩

/-- C2: for every id, the builder chains of `Query` and `Delete` carry the same
cache key, the key `userCacheKey` gives for that id; `Delete` passes it with the
negative duration -1 and `Query` with the positive duration of 5 seconds. -/
theorem GrpcServer.query_delete_share_cache_key (s : GrpcServer.server)
    (ctxq ctxd : Context) (i : GoInt32) :
    (s.QueryModel ctxq ⟨i⟩).cache = some (5000000000, s.userCacheKey i)
      ∧ (s.DeleteModel ctxd ⟨i⟩).cache = some (-1, s.userCacheKey i)
      ∧ (∀ db, s.Query db ctxq ⟨i⟩
            = match db.Scan (s.QueryModel ctxq ⟨i⟩) ⟨[]⟩ with
              | (_, some err) => (none, some err)
              | (res, none) => (some res, none))
      ∧ (∀ db, s.Delete db ctxd ⟨i⟩
            = match db.Delete (s.DeleteModel ctxd ⟨i⟩) with
              | .error err => (none, some err)
              | .ok _ => (some ⟨⟩, none)) := by
  refine ⟨?_, ?_, fun _ => rfl, fun _ => rfl⟩
  · simp [GrpcServer.server.QueryModel, GrpcServer.Model.WherePri, GrpcServer.Model.Cache,
      time.Second]
  · simp [GrpcServer.server.DeleteModel, GrpcServer.Model.WherePri, GrpcServer.Model.Cache]

/-- C1 as stated fails: on a database whose insert succeeds and whose
`LastInsertId()` returns an error, `Insert` returns a response and a nil error;
the error of that database operation is not returned. -/
theorem GrpcServer.insert_swallows_lastInsertId_error :
    ((GrpcServer.sampleDatabase ⟨0, by decide, by decide⟩ (some ⟨"not supported"⟩)).Insert
          ((GrpcServer.Table "user").Ctx context.Background) [("name", "john")]
        = .ok ⟨⟨0, by decide, by decide⟩, some ⟨"not supported"⟩⟩)
      ∧ (GrpcServer.SqlResult.LastInsertId
            ⟨⟨0, by decide, by decide⟩, some ⟨"not supported"⟩⟩).2 = some ⟨"not supported"⟩
      ∧ GrpcServer.server.mk.Insert
          (GrpcServer.sampleDatabase ⟨0, by decide, by decide⟩ (some ⟨"not supported"⟩))
          context.Background ⟨"john"⟩
        = (some ⟨⟨0, by decide, by decide⟩⟩, none) := by
  refine ⟨rfl, rfl, ?_⟩
  decide

/-- C1, amended: for each handler, an error of the statement that ends its
builder chain (`Insert(..)`, `Scan(&res)`, `Delete()`) is returned unchanged
with a nil response, and when that statement succeeds the handler returns a
non-nil response and a nil error (whatever `LastInsertId()` reports). -/
theorem GrpcServer.handlers_propagate_statement_errors (s : GrpcServer.server)
    (db : GrpcServer.Database) (ctx : Context) :
    (∀ req err, db.Insert ((GrpcServer.Table "user").Ctx ctx) [("name", req.Name)] = .error err →
        s.Insert db ctx req = (none, some err))
      ∧ (∀ req result,
          db.Insert ((GrpcServer.Table "user").Ctx ctx) [("name", req.Name)] = .ok result →
          ∃ res, s.Insert db ctx req = (some res, none))
      ∧ (∀ req res err, db.Scan (s.QueryModel ctx req) ⟨[]⟩ = (res, some err) →
          s.Query db ctx req = (none, some err))
      ∧ (∀ req res, db.Scan (s.QueryModel ctx req) ⟨[]⟩ = (res, none) →
          s.Query db ctx req = (some res, none))
      ∧ (∀ req err, db.Delete (s.DeleteModel ctx req) = .error err →
          s.Delete db ctx req = (none, some err))
      ∧ (∀ req result, db.Delete (s.DeleteModel ctx req) = .ok result →
          ∃ res, s.Delete db ctx req = (some res, none)) := by
  refine ⟨?_, ?_, ?_, ?_, ?_, ?_⟩
  · intro req err h
    simp [GrpcServer.server.Insert, h]
  · intro req result h
    simp [GrpcServer.server.Insert, h]
  · intro req res err h
    simp [GrpcServer.server.Query, h]
  · intro req res h
    simp [GrpcServer.server.Query, h]
  · intro req err h
    simp [GrpcServer.server.Delete, h]
  · intro req result h
    exact ⟨⟨⟩, by simp [GrpcServer.server.Delete, h]⟩

/-- C1, amended, on concrete databases: a failing database makes each handler
return its error with a nil response, a working one makes each handler return a
response with a nil error. -/
theorem GrpcServer.handlers_propagate_statement_errors_witness :
    GrpcServer.server.mk.Insert (GrpcServer.failingDatabase ⟨"down"⟩) context.Background ⟨"john"⟩
        = (none, some ⟨"down"⟩)
      ∧ GrpcServer.server.mk.Query (GrpcServer.failingDatabase ⟨"down"⟩) context.Background
          ⟨⟨7, by decide, by decide⟩⟩ = (none, some ⟨"down"⟩)
      ∧ GrpcServer.server.mk.Delete (GrpcServer.failingDatabase ⟨"down"⟩) context.Background
          ⟨⟨7, by decide, by decide⟩⟩ = (none, some ⟨"down"⟩)
      ∧ (∃ res, GrpcServer.server.mk.Insert
          (GrpcServer.sampleDatabase ⟨5, by decide, by decide⟩ none) context.Background ⟨"john"⟩
            = (some res, none))
      ∧ GrpcServer.server.mk.Query
          (GrpcServer.sampleDatabase ⟨5, by decide, by decide⟩ none) context.Background
          ⟨⟨7, by decide, by decide⟩⟩ = (some ⟨[("name", "john")]⟩, none)
      ∧ (∃ res, GrpcServer.server.mk.Delete
          (GrpcServer.sampleDatabase ⟨5, by decide, by decide⟩ none) context.Background
          ⟨⟨7, by decide, by decide⟩⟩ = (some res, none)) :=
  ⟨(GrpcServer.handlers_propagate_statement_errors _ (GrpcServer.failingDatabase ⟨"down"⟩)
      context.Background).1 ⟨"john"⟩ _ rfl,
   (GrpcServer.handlers_propagate_statement_errors _ (GrpcServer.failingDatabase ⟨"down"⟩)
      context.Background).2.2.1 _ _ _ rfl,
   (GrpcServer.handlers_propagate_statement_errors _ (GrpcServer.failingDatabase ⟨"down"⟩)
      context.Background).2.2.2.2.1 _ _ rfl,
   (GrpcServer.handlers_propagate_statement_errors _
      (GrpcServer.sampleDatabase ⟨5, by decide, by decide⟩ none)
      context.Background).2.1 ⟨"john"⟩ _ rfl,
   (GrpcServer.handlers_propagate_statement_errors _
      (GrpcServer.sampleDatabase ⟨5, by decide, by decide⟩ none)
      context.Background).2.2.2.1 _ _ rfl,
   (GrpcServer.handlers_propagate_statement_errors _
      (GrpcServer.sampleDatabase ⟨5, by decide, by decide⟩ none)
      context.Background).2.2.2.2.2 _ _ rfl⟩

/-- C10 as stated fails in its last part: on a database whose insert succeeds
and whose `LastInsertId()` returns the value -1 together with an error, the
response of `Insert` carries `Id = -1`, not `Id = 0`, with a nil error. -/
theorem GrpcServer.insert_id_not_zero_on_lastInsertId_error :
    (GrpcServer.SqlResult.LastInsertId
        ⟨⟨-1, by decide, by decide⟩, some ⟨"LastInsertId is not supported"⟩⟩).2
        = some ⟨"LastInsertId is not supported"⟩
      ∧ GrpcServer.server.mk.Insert
          (GrpcServer.sampleDatabase ⟨-1, by decide, by decide⟩
            (some ⟨"LastInsertId is not supported"⟩))
          context.Background ⟨"john"⟩
        = (some ⟨⟨-1, by decide, by decide⟩⟩, none)
      ∧ (⟨-1, by decide, by decide⟩ : GoInt32).val ≠ 0 := by
  refine ⟨rfl, ?_, ?_⟩ <;> decide

/-- C10, amended: after a successful insert the response of `Insert` is
non-nil with a nil error, and its `Id` is the `int32` conversion of the value
`LastInsertId()` returned (whether or not it also returned an error): the
`int32` congruent to that value modulo 2^32. It equals the value exactly when
the value lies in [-2^31, 2^31 - 1], and it is 0 when the value is 0. -/
theorem GrpcServer.insert_id_is_int32_of_lastInsertId (s : GrpcServer.server)
    (db : GrpcServer.Database) (ctx : Context) (req : GrpcServer.InsertReq)
    (result : GrpcServer.SqlResult)
    (h : db.Insert ((GrpcServer.Table "user").Ctx ctx) [("name", req.Name)] = .ok result) :
    ∃ res : GrpcServer.InsertRes,
      s.Insert db ctx req = (some res, none)
        ∧ res.Id = result.LastInsertId.1.toInt32
        ∧ res.Id.val % 4294967296 = result.LastInsertId.1.val % 4294967296
        ∧ (res.Id.val = result.LastInsertId.1.val
            ↔ -2147483648 ≤ result.LastInsertId.1.val ∧ result.LastInsertId.1.val ≤ 2147483647)
        ∧ (result.LastInsertId.1.val = 0 → res.Id.val = 0) := by
  refine ⟨⟨result.LastInsertId.1.toInt32⟩, ?_, rfl, ?_, ?_, ?_⟩
  · simp [GrpcServer.server.Insert, h]
  · simp only [GoInt64.toInt32]
    split <;> omega
  · have hlo := result.LastInsertId.1.lo
    have hhi := result.LastInsertId.1.hi
    simp only [GoInt64.toInt32]
    split <;> omega
  · intro h0
    simp only [GoInt64.toInt32, h0]
    decide

/-- C10, amended, on concrete databases: the last-insert id 2^32 + 5 gives
`Id = 5`. -/
theorem GrpcServer.insert_id_is_int32_of_lastInsertId_witness :
    ∃ res : GrpcServer.InsertRes,
      GrpcServer.server.mk.Insert
          (GrpcServer.sampleDatabase ⟨4294967301, by decide, by decide⟩ none)
          context.Background ⟨"john"⟩ = (some res, none)
        ∧ res.Id.val = 5 := by
  obtain ⟨res, h1, h2, _⟩ := GrpcServer.insert_id_is_int32_of_lastInsertId GrpcServer.server.mk
    (GrpcServer.sampleDatabase ⟨4294967301, by decide, by decide⟩ none)
    context.Background ⟨"john"⟩ ⟨⟨4294967301, by decide, by decide⟩, none⟩ rfl
  exact ⟨res, h1, by rw [h2]; decide⟩

/-- C4: `main` registers the list [UnaryError, UnaryRecover, UnaryTracing,
UnaryValidate], and for every handler `h` the handler the server runs is
UnaryError(UnaryRecover(UnaryTracing(UnaryValidate(h)))). -/
theorem GrpcServer.main_interceptors_outer_to_inner {Req Resp Info : Type}
    (krpc : GrpcServer.KrpcServer Req Resp Info) (info : Info)
    (h : grpc.UnaryHandler Req Resp) :
    GrpcServer.main.interceptors krpc
        = [krpc.UnaryError, krpc.UnaryRecover, krpc.UnaryTracing, krpc.UnaryValidate]
      ∧ GrpcServer.main.effectiveHandler krpc info h
        = GrpcServer.wrap krpc.UnaryError info
            (GrpcServer.wrap krpc.UnaryRecover info
              (GrpcServer.wrap krpc.UnaryTracing info
                (GrpcServer.wrap krpc.UnaryValidate info h)))
      ∧ (∀ ctx req, GrpcServer.main.effectiveHandler krpc info h ctx req
          = krpc.UnaryError ctx req info (fun c1 r1 =>
              krpc.UnaryRecover c1 r1 info (fun c2 r2 =>
                krpc.UnaryTracing c2 r2 info (fun c3 r3 =>
                  krpc.UnaryValidate c3 r3 info h)))) := by
  refine ⟨rfl, rfl, fun _ _ => rfl⟩

/-! ### The client programs -/

theorem Baggage.get_set (b : List (String × String)) (key value : String) :
    Baggage.get (Baggage.set b key value) key = some value := by
  induction b with
  | nil => simp [Baggage.set, Baggage.get]
  | cons kv rest ih =>
    obtain ⟨k, v⟩ := kv
    by_cases hk : k = key
    · simp [Baggage.set, Baggage.get, hk]
    · simp [Baggage.set, Baggage.get, hk, ih]

theorem eventsOf_eq {α : Type} (m : Go α) (w : World) (r : Result α) (w1 : World)
    (events : List Event) (h : m w = (r, w1)) (hlog : w1.log = w.log ++ events) :
    eventsOf m w = events := by
  simp [eventsOf, h, hlog]

theorem gtrace.newSpan_operationName (env : Env) (ctx : Context) (spanName : String)
    (fresh : Nat) : (gtrace.Tracer.newSpan env ctx spanName fresh).operationName = spanName := by
  unfold gtrace.Tracer.newSpan
  split <;> rfl

theorem ExamplesHttpClient.startRequests_run (env : Env) (ctx : Context) (w : World)
    (sp : Span) (c : Context)
    (hsp : sp = gtrace.Tracer.newSpan env ctx "StartRequests" w.nextId)
    (hc : c = gtrace.SetBaggageValue { ctx with span := some sp } "name" "john") :
    ∃ (mid : List Event) (r : Result Unit),
      ExamplesHttpClient.StartRequests env ctx w
          = (r, ⟨w.now + env.getContentTime, w.nextId + 2, w.cancelled,
                 w.log ++ ([.spanStart sp, .httpGet c "http://127.0.0.1:8199/hello",
                             .httpDone (env.getContent c "http://127.0.0.1:8199/hello")]
                            ++ mid ++ [.spanEnd sp])⟩)
        ∧ (∀ code, r ≠ .exit code)
        ∧ (mid = [] ∨ ∃ content, mid = [.logPrint c content])
        ∧ (∀ msg, env.getContent c "http://127.0.0.1:8199/hello" = .panics msg →
            r = .panic msg) := by
  subst hsp hc
  simp only [ExamplesHttpClient.StartRequests, gtrace.NewSpan, gtrace.Tracer.Start,
    bind, Go.bind, Go.withDefer, gtrace.Span.End, emit, Client.GetContent, Log.Print]
  cases hq : env.getContent _ _ <;> cases hp : env.printPanics
  case response.none content =>
    exact ⟨[.logPrint _ content], .ok (), by simp, by simp, Or.inr ⟨content, rfl⟩, by simp⟩
  case response.some content msg =>
    exact ⟨[], .panic msg, by simp, by simp, Or.inl rfl, by simp⟩
  case failure.none err =>
    exact ⟨[.logPrint _ ""], .ok (), by simp, by simp, Or.inr ⟨"", rfl⟩, by simp⟩
  case failure.some err msg =>
    exact ⟨[], .panic msg, by simp, by simp, Or.inl rfl, by simp⟩
  case panics.none msg =>
    exact ⟨[], .panic msg, by simp, by simp, Or.inl rfl, by simp⟩
  case panics.some msg later =>
    exact ⟨[], .panic msg, by simp, by simp, Or.inl rfl, by simp⟩

theorem HttpClient.startRequests_background_run (env : Env) (w : World)
    (sp : Span) (c : Context)
    (hsp : sp = gtrace.Tracer.newSpan env context.Background "StartRequests" w.nextId)
    (hc : c = baggage.ContextWithValues { context.Background with span := some sp }
      [label.String "name" "john"]) :
    ∃ (mid : List Event) (r : Result Unit),
      HttpClient.StartRequests env w
          = (r, ⟨w.now + env.getContentTime, w.nextId + 2, w.cancelled,
                 w.log ++ ([.spanStart sp, .httpGet c "http://127.0.0.1:8199/hello",
                             .httpDone (env.getContent c "http://127.0.0.1:8199/hello")]
                            ++ mid ++ [.spanEnd sp])⟩)
        ∧ (∀ code, r ≠ .exit code)
        ∧ (mid = [] ∨ ∃ content, mid = [.logPrint c content])
        ∧ (∀ msg, env.getContent c "http://127.0.0.1:8199/hello" = .panics msg →
            r = .panic msg) := by
  subst hsp hc
  simp only [HttpClient.StartRequests, gtrace.Tracer.Start,
    bind, Go.bind, Go.withDefer, gtrace.Span.End, emit, Client.GetContent, Log.Print]
  cases hq : env.getContent _ _ <;> cases hp : env.printPanics
  case response.none content =>
    exact ⟨[.logPrint _ content], .ok (), by simp, by simp, Or.inr ⟨content, rfl⟩, by simp⟩
  case response.some content msg =>
    exact ⟨[], .panic msg, by simp, by simp, Or.inl rfl, by simp⟩
  case failure.none err =>
    exact ⟨[.logPrint _ ""], .ok (), by simp, by simp, Or.inr ⟨"", rfl⟩, by simp⟩
  case failure.some err msg =>
    exact ⟨[], .panic msg, by simp, by simp, Or.inl rfl, by simp⟩
  case panics.none msg =>
    exact ⟨[], .panic msg, by simp, by simp, Or.inl rfl, by simp⟩
  case panics.some msg later =>
    exact ⟨[], .panic msg, by simp, by simp, Or.inl rfl, by simp⟩

/-- C5: in both client programs `StartRequests` first starts a span whose
operation name is `StartRequests`; the only HTTP call it makes is the GET to
`/hello`, and the context handed to that call has this span as active span and
a baggage that maps `name` to `john` (exactly the set with that one pair when
the incoming context had no baggage, as in both programs). -/
theorem startRequests_hands_over_span_and_baggage (env : Env) (w : World) (ctx : Context) :
    (∃ (sp : Span) (c : Context),
        sp.operationName = "StartRequests"
          ∧ (eventsOf (HttpClient.StartRequests env) w).head? = some (.spanStart sp)
          ∧ Event.httpGet c "http://127.0.0.1:8199/hello"
              ∈ eventsOf (HttpClient.StartRequests env) w
          ∧ (∀ c1 u, Event.httpGet c1 u ∈ eventsOf (HttpClient.StartRequests env) w →
              c1 = c ∧ u = "http://127.0.0.1:8199/hello")
          ∧ c.span = some sp
          ∧ Baggage.get c.baggage "name" = some "john"
          ∧ c.baggage = [("name", "john")])
      ∧ (∃ (sp : Span) (c : Context),
        sp.operationName = "StartRequests"
          ∧ (eventsOf (ExamplesHttpClient.StartRequests env ctx) w).head? = some (.spanStart sp)
          ∧ Event.httpGet c "http://127.0.0.1:8199/hello"
              ∈ eventsOf (ExamplesHttpClient.StartRequests env ctx) w
          ∧ (∀ c1 u, Event.httpGet c1 u ∈ eventsOf (ExamplesHttpClient.StartRequests env ctx) w →
              c1 = c ∧ u = "http://127.0.0.1:8199/hello")
          ∧ c.span = some sp
          ∧ Baggage.get c.baggage "name" = some "john"
          ∧ (ctx.baggage = [] → c.baggage = [("name", "john")])) := by
  constructor
  · obtain ⟨mid, r, hrun, -, hmid, -⟩ := HttpClient.startRequests_background_run env w
      (gtrace.Tracer.newSpan env context.Background "StartRequests" w.nextId)
      (baggage.ContextWithValues
        { context.Background with
          span := some (gtrace.Tracer.newSpan env context.Background "StartRequests" w.nextId) }
        [label.String "name" "john"]) rfl rfl
    rw [eventsOf_eq _ _ _ _ _ hrun rfl]
    refine ⟨gtrace.Tracer.newSpan env context.Background "StartRequests" w.nextId,
      baggage.ContextWithValues
        { context.Background with
          span := some (gtrace.Tracer.newSpan env context.Background "StartRequests" w.nextId) }
        [label.String "name" "john"],
      gtrace.newSpan_operationName _ _ _ _, rfl, by simp, ?_, rfl, ?_, ?_⟩
    · intro c1 u hmem
      rcases hmid with hm | ⟨content, hm⟩ <;> subst hm <;> simpa using hmem
    · simp [baggage.ContextWithValues, label.String, Baggage.set, Baggage.get,
        context.Background]
    · simp [baggage.ContextWithValues, label.String, Baggage.set, context.Background]
  · obtain ⟨mid, r, hrun, -, hmid, -⟩ := ExamplesHttpClient.startRequests_run env ctx w
      (gtrace.Tracer.newSpan env ctx "StartRequests" w.nextId)
      (gtrace.SetBaggageValue
        { ctx with span := some (gtrace.Tracer.newSpan env ctx "StartRequests" w.nextId) }
        "name" "john") rfl rfl
    rw [eventsOf_eq _ _ _ _ _ hrun rfl]
    refine ⟨gtrace.Tracer.newSpan env ctx "StartRequests" w.nextId,
      gtrace.SetBaggageValue
        { ctx with span := some (gtrace.Tracer.newSpan env ctx "StartRequests" w.nextId) }
        "name" "john",
      gtrace.newSpan_operationName _ _ _ _, rfl, by simp, ?_, rfl,
      Baggage.get_set _ _ _, ?_⟩
    · intro c1 u hmem
      rcases hmid with hm | ⟨content, hm⟩ <;> subst hm <;> simpa using hmem
    · intro hb
      simp [gtrace.SetBaggageValue, hb, Baggage.set]

/-- C6: in both client programs every run of `StartRequests`, whatever the
HTTP call and the logger do, records exactly one `End()` of the span it
started: it is the last event of the run, it comes after the start of the span
and after the HTTP call has been made and has finished, and no `End()` comes
before it. When the HTTP call panics, `StartRequests` panics with the same
value, after that `End()`. -/
theorem startRequests_ends_span_exactly_once (env : Env) (w : World) (ctx : Context) :
    (∃ (sp : Span) (c : Context) (before : List Event),
        eventsOf (HttpClient.StartRequests env) w = before ++ [.spanEnd sp]
          ∧ (∀ s, Event.spanEnd s ∉ before)
          ∧ before.head? = some (.spanStart sp)
          ∧ [Event.httpGet c "http://127.0.0.1:8199/hello",
              Event.httpDone (env.getContent c "http://127.0.0.1:8199/hello")] <+: before.tail
          ∧ (∀ msg, env.getContent c "http://127.0.0.1:8199/hello" = .panics msg →
              (HttpClient.StartRequests env w).1 = .panic msg))
      ∧ (∃ (sp : Span) (c : Context) (before : List Event),
        eventsOf (ExamplesHttpClient.StartRequests env ctx) w = before ++ [.spanEnd sp]
          ∧ (∀ s, Event.spanEnd s ∉ before)
          ∧ before.head? = some (.spanStart sp)
          ∧ [Event.httpGet c "http://127.0.0.1:8199/hello",
              Event.httpDone (env.getContent c "http://127.0.0.1:8199/hello")] <+: before.tail
          ∧ (∀ msg, env.getContent c "http://127.0.0.1:8199/hello" = .panics msg →
              (ExamplesHttpClient.StartRequests env ctx w).1 = .panic msg)) := by
  constructor
  · obtain ⟨mid, r, hrun, -, hmid, hpanic⟩ := HttpClient.startRequests_background_run env w _ _ rfl rfl
    rw [eventsOf_eq _ _ _ _ _ hrun rfl, hrun]
    refine ⟨_, _, _, rfl, ?_, rfl, ⟨mid, rfl⟩, hpanic⟩
    intro s hmem
    rcases hmid with hm | ⟨content, hm⟩ <;> subst hm <;> simp at hmem
  · obtain ⟨mid, r, hrun, -, hmid, hpanic⟩ :=
      ExamplesHttpClient.startRequests_run env ctx w _ _ rfl rfl
    rw [eventsOf_eq _ _ _ _ _ hrun rfl, hrun]
    refine ⟨_, _, _, rfl, ?_, rfl, ⟨mid, rfl⟩, hpanic⟩
    intro s hmem
    rcases hmid with hm | ⟨content, hm⟩ <;> subst hm <;> simp at hmem

/-- C7: when `main` of the examples HTTP client returns normally (so the tracer
initialisation succeeded) from a start in which no fresh cancel function has
been called, `Shutdown` is called exactly once, after `StartRequests` has
returned (its last event, the `End()` of its span, comes right before), at the
clock value at which the deferred cleanup starts; the context it gets has its
deadline 5 seconds (5000000000 ns) after that clock value and is not yet done;
no cancel function is called before `Shutdown` returns, then the cancel of the
timeout context and last the cancel of the parent context run; and `Shutdown`
returns, and `main` ends, at most 5 seconds after the cleanup started. -/
theorem ExamplesHttpClient.main_shuts_down_once_within_deadline (env : Env) (w : World)
    (hfresh : ∀ s ∈ w.cancelled, s < w.nextId)
    (hok : (ExamplesHttpClient.main env w).1 = .ok ()) :
    ∃ (pre : List Event) (sp : Span) (c : Context) (back : Nat),
      eventsOf (ExamplesHttpClient.main env) w
          = pre ++ [.shutdownCall c (w.now + env.getContentTime) false, .shutdownReturn back,
                    .cancel (w.nextId + 3), .cancel w.nextId]
        ∧ pre.getLast? = some (.spanEnd sp)
        ∧ sp.operationName = "StartRequests"
        ∧ (∀ c1 t1 d1, Event.shutdownCall c1 t1 d1 ∉ pre)
        ∧ (∀ scope, Event.cancel scope ∉ pre)
        ∧ c.deadline = some (w.now + env.getContentTime + 5000000000)
        ∧ c.scopes = [w.nextId + 3, w.nextId]
        ∧ w.now + env.getContentTime ≤ back
        ∧ back ≤ w.now + env.getContentTime + 5000000000
        ∧ (ExamplesHttpClient.main env w).2.now = back
        ∧ env.initJaegerErr = none := by
  obtain ⟨sp, hsp⟩ : ∃ sp, sp = gtrace.Tracer.newSpan env ⟨none, [], none, [w.nextId]⟩
    "StartRequests" (w.nextId + 1) := ⟨_, rfl⟩
  obtain ⟨c, hc⟩ : ∃ c, c = gtrace.SetBaggageValue ⟨some sp, [], none, [w.nextId]⟩
    "name" "john" := ⟨_, rfl⟩
  obtain ⟨mid, r, hrun, hexit, hmid, -⟩ := ExamplesHttpClient.startRequests_run env
      ⟨none, [], none, [w.nextId]⟩
      ⟨w.now, w.nextId + 1, w.cancelled,
        w.log ++ [.initJaeger ExamplesHttpClient.ServiceName ExamplesHttpClient.JaegerUdpEndpoint]⟩
      sp c hsp hc
  have hname : sp.operationName = "StartRequests" := by
    rw [hsp]; exact gtrace.newSpan_operationName _ _ _ _
  have hfive : (time.Second * 5).toNat = 5000000000 := by decide
  have hnot1 : w.nextId + 1 + 2 ∉ w.cancelled := fun h => by have := hfresh _ h; omega
  have hnot2 : w.nextId ∉ w.cancelled := fun h => by have := hfresh _ h; omega
  clear hsp hc
  unfold eventsOf at *
  cases hinit : env.initJaegerErr <;> cases hsd : env.shutdownErr <;> cases r <;>
    simp only [ExamplesHttpClient.main, ExamplesHttpClient.main.cleanup, bind, Go.bind,
      Go.withDefer, context.WithCancel, context.WithTimeout,
      ExamplesHttpClient.tracing.InitJaeger,
      ExamplesHttpClient.TracerProvider.Shutdown, Log.Fatal, CancelFunc.call, pure, Go.pure,
      context.Background, hinit, hsd, hrun] at hok
  all_goals first | (exact absurd rfl (hexit _)) | (cases hok; done) | skip
  simp only [ExamplesHttpClient.main, ExamplesHttpClient.main.cleanup, bind, Go.bind,
      Go.withDefer, context.WithCancel, context.WithTimeout,
      ExamplesHttpClient.tracing.InitJaeger,
      ExamplesHttpClient.TracerProvider.Shutdown, Log.Fatal, CancelFunc.call, pure, Go.pure,
      context.Background, hinit, hsd, hrun]
  refine ⟨[.initJaeger ExamplesHttpClient.ServiceName ExamplesHttpClient.JaegerUdpEndpoint]
      ++ ([.spanStart sp, .httpGet c "http://127.0.0.1:8199/hello",
            .httpDone (env.getContent c "http://127.0.0.1:8199/hello")] ++ mid ++ [.spanEnd sp]),
    sp, ⟨none, [], some (w.now + env.getContentTime + 5000000000), [w.nextId + 3, w.nextId]⟩,
    min (w.now + env.getContentTime + env.flushTime)
      (max (w.now + env.getContentTime + 5000000000) (w.now + env.getContentTime)),
    ?_, ?_, hname, ?_, ?_, rfl, rfl, ?_, ?_, ?_, trivial⟩
  · simp [Context.done, hfive, hnot1, hnot2]
  · rcases hmid with hm | ⟨content, hm⟩ <;> subst hm <;> simp
  · intro c1 t1 d1 hmem
    rcases hmid with hm | ⟨content, hm⟩ <;> subst hm <;> simp at hmem
  · intro scope hmem
    rcases hmid with hm | ⟨content, hm⟩ <;> subst hm <;> simp at hmem
  · omega
  · omega
  · simp [hfive]

/-- C7 on a concrete run: with a GET of 7 ns and a flush that would take 9
seconds, `main` returns normally and ends at clock value 7 + 5000000000, the
deadline of the shutdown context. -/
theorem ExamplesHttpClient.main_shuts_down_once_within_deadline_witness :
    (∃ (pre : List Event) (sp : Span) (c : Context) (back : Nat),
      eventsOf (ExamplesHttpClient.main ExamplesHttpClient.sampleEnv) World.start
          = pre ++ [.shutdownCall c
                      (World.start.now + ExamplesHttpClient.sampleEnv.getContentTime) false,
                    .shutdownReturn back,
                    .cancel (World.start.nextId + 3), .cancel World.start.nextId]
        ∧ pre.getLast? = some (.spanEnd sp)
        ∧ sp.operationName = "StartRequests"
        ∧ (∀ c1 t1 d1, Event.shutdownCall c1 t1 d1 ∉ pre)
        ∧ (∀ scope, Event.cancel scope ∉ pre)
        ∧ c.deadline
            = some (World.start.now + ExamplesHttpClient.sampleEnv.getContentTime + 5000000000)
        ∧ c.scopes = [World.start.nextId + 3, World.start.nextId]
        ∧ World.start.now + ExamplesHttpClient.sampleEnv.getContentTime ≤ back
        ∧ back ≤ World.start.now + ExamplesHttpClient.sampleEnv.getContentTime + 5000000000
        ∧ (ExamplesHttpClient.main ExamplesHttpClient.sampleEnv World.start).2.now = back
        ∧ ExamplesHttpClient.sampleEnv.initJaegerErr = none)
      ∧ (ExamplesHttpClient.main ExamplesHttpClient.sampleEnv World.start).1 = .ok ()
      ∧ (ExamplesHttpClient.main ExamplesHttpClient.sampleEnv World.start).2.now = 5000000007 :=
  ⟨ExamplesHttpClient.main_shuts_down_once_within_deadline ExamplesHttpClient.sampleEnv
      World.start (by simp [World.start]) (by decide),
   by decide, by decide⟩

/-! ### The propagator -/

theorem Propagator.hexValue_hexDigit (d : Nat) (h : d < 16) :
    Propagator.hexValue (Propagator.hexDigit d) = some d := by
  interval_cases d <;> rfl

theorem Propagator.hexDecodeFrom_append (l : List Char) (ch : Char) :
    ∀ acc : Nat, Propagator.hexDecodeFrom (l ++ [ch]) acc
      = (Propagator.hexDecodeFrom l acc).bind
          (fun a => (Propagator.hexValue ch).map (fun d => 16 * a + d)) := by
  induction l with
  | nil =>
    intro acc
    simp only [List.nil_append, Propagator.hexDecodeFrom, Option.some_bind]
    cases Propagator.hexValue ch <;> rfl
  | cons c rest ih =>
    intro acc
    simp only [List.cons_append, Propagator.hexDecodeFrom]
    cases Propagator.hexValue c with
    | none => rfl
    | some d => exact ih _

theorem Propagator.hexEncode_length (width : Nat) :
    ∀ n : Nat, (Propagator.hexEncode width n).length = width := by
  induction width with
  | zero => intro n; rfl
  | succ w ih => intro n; simp [Propagator.hexEncode, ih]

theorem Propagator.hexDecodeFrom_hexEncode (width : Nat) :
    ∀ n : Nat, Propagator.hexDecodeFrom (Propagator.hexEncode width n) 0
      = some (n % 16 ^ width) := by
  induction width with
  | zero => intro n; simp [Propagator.hexEncode, Propagator.hexDecodeFrom, Nat.mod_one]
  | succ w ih =>
    intro n
    rw [Propagator.hexEncode, Propagator.hexDecodeFrom_append, ih,
      Propagator.hexValue_hexDigit _ (Nat.mod_lt _ (by decide))]
    simp only [Option.some_bind, Option.map_some']
    congr 1
    rw [pow_succ, mul_comm (16 ^ w) 16, Nat.mod_mul]
    omega

theorem Propagator.hexDecode_hexEncode (width n : Nat) (h : n < 16 ^ width) :
    Propagator.hexDecode width (Propagator.hexEncode width n) = some n := by
  rw [Propagator.hexDecode, if_pos (Propagator.hexEncode_length width n),
    Propagator.hexDecodeFrom_hexEncode, Nat.mod_eq_of_lt h]

theorem Propagator.decodeSampled_encodeSampled (b : Bool) :
    Propagator.decodeSampled (Propagator.encodeSampled b) = some b := by
  cases b <;> decide

theorem Propagator.stripMark_append (mark text : List Char) :
    Propagator.stripMark mark (mark ++ text) = some text := by
  induction mark with
  | nil => cases text <;> rfl
  | cons m rest ih => simp [Propagator.stripMark, ih]

theorem Propagator.set_of_not_mem (carrier : Propagator.Carrier) (key value : String)
    (h : key ∉ carrier.map Prod.fst) :
    Propagator.Carrier.set carrier key value = carrier ++ [(key, value)] := by
  induction carrier with
  | nil => rfl
  | cons kv rest ih =>
    obtain ⟨k, v⟩ := kv
    simp only [List.map_cons, List.mem_cons, not_or] at h
    have hk : ¬ (k = key) := fun e => h.1 e.symm
    simp [Propagator.Carrier.set, hk, ih h.2]

theorem Propagator.marked_injective (a b : String)
    (h : Propagator.baggageMark ++ a = Propagator.baggageMark ++ b) : a = b := by
  have hd := congrArg String.data h
  rw [String.data_append, String.data_append] at hd
  exact String.ext (List.append_cancel_left hd)

theorem Propagator.foldl_set_marked (bag : List (String × String)) :
    ∀ acc : Propagator.Carrier,
      (∀ kv ∈ bag, Propagator.baggageMark ++ kv.1 ∉ acc.map Prod.fst) →
      (bag.map Prod.fst).Nodup →
      bag.foldl (fun carrier kv =>
          Propagator.Carrier.set carrier (Propagator.baggageMark ++ kv.1) kv.2) acc
        = acc ++ bag.map (fun kv => (Propagator.baggageMark ++ kv.1, kv.2)) := by
  induction bag with
  | nil => intro acc _ _; simp
  | cons kv rest ih =>
    intro acc hacc hnodup
    simp only [List.map_cons, List.nodup_cons] at hnodup
    simp only [List.foldl_cons]
    rw [Propagator.set_of_not_mem _ _ _ (hacc kv (List.mem_cons_self _ _)), ih]
    · simp
    · intro kv1 hmem
      simp only [List.map_append, List.map_cons, List.map_nil, List.mem_append,
        List.mem_singleton, not_or]
      refine ⟨hacc kv1 (List.mem_cons_of_mem _ hmem), ?_⟩
      intro e
      have := Propagator.marked_injective _ _ e
      exact hnodup.1 (this ▸ List.mem_map_of_mem Prod.fst hmem)
    · exact hnodup.2

theorem Propagator.marked_ne_trace_keys (key : String) :
    Propagator.baggageMark ++ key ∉
      [Propagator.traceIdKey, Propagator.spanIdKey, Propagator.sampledKey] := by
  intro h
  simp only [List.mem_cons, List.mem_singleton, List.not_mem_nil, or_false] at h
  rcases h with h | h | h <;>
    · have hd := congrArg String.data h
      rw [String.data_append,
        show Propagator.baggageMark.data = 'b' :: ['a', 'g', 'g', 'a', 'g', 'e', '-'] from rfl]
        at hd
      have hh := congrArg List.head? hd
      simp only [List.cons_append, List.head?_cons] at hh
      exact absurd hh (by decide)

theorem Propagator.inject_eq (c : Propagator.SpanContext)
    (hnodup : (c.baggage.map Prod.fst).Nodup) :
    Propagator.Inject c
      = [(Propagator.traceIdKey, String.mk (Propagator.hexEncode 32 c.traceId)),
         (Propagator.spanIdKey, String.mk (Propagator.hexEncode 16 c.spanId)),
         (Propagator.sampledKey, Propagator.encodeSampled c.sampled)]
        ++ c.baggage.map (fun kv => (Propagator.baggageMark ++ kv.1, kv.2)) := by
  have hbase : Propagator.Carrier.set
      (Propagator.Carrier.set
        (Propagator.Carrier.set [] Propagator.traceIdKey
          (String.mk (Propagator.hexEncode 32 c.traceId)))
        Propagator.spanIdKey (String.mk (Propagator.hexEncode 16 c.spanId)))
      Propagator.sampledKey (Propagator.encodeSampled c.sampled)
      = [(Propagator.traceIdKey, String.mk (Propagator.hexEncode 32 c.traceId)),
         (Propagator.spanIdKey, String.mk (Propagator.hexEncode 16 c.spanId)),
         (Propagator.sampledKey, Propagator.encodeSampled c.sampled)] := by
    have h1 : ¬ (Propagator.traceIdKey = Propagator.spanIdKey) := by decide
    have h2 : ¬ (Propagator.traceIdKey = Propagator.sampledKey) := by decide
    have h3 : ¬ (Propagator.spanIdKey = Propagator.sampledKey) := by decide
    simp [Propagator.Carrier.set, h1, h2, h3]
  rw [Propagator.Inject, hbase]
  exact Propagator.foldl_set_marked _ _
    (fun kv _ => Propagator.marked_ne_trace_keys kv.1) hnodup

theorem Propagator.baggageOf_marked (bag : List (String × String)) :
    Propagator.baggageOf (bag.map (fun kv => (Propagator.baggageMark ++ kv.1, kv.2))) = bag := by
  induction bag with
  | nil => rfl
  | cons kv rest ih =>
    obtain ⟨k, v⟩ := kv
    unfold Propagator.baggageOf at ih ⊢
    simp only [List.map_cons, List.filterMap_cons, String.data_append,
      Propagator.stripMark_append, ih]

/-- C8: for every valid context `c` (128-bit trace id, 64-bit span id, unique
baggage keys) `Extract (Inject c)` succeeds and yields a context with the trace
id, the span id, the sampled flag and the baggage of `c`, the baggage pairs in
the same order; it is `c` itself up to the parent span id, which is not on the
wire, and so equal to `c` when `c` has no parent span id. -/
theorem Propagator.extract_inject_roundtrip (c : Propagator.SpanContext)
    (hvalid : c.Valid) :
    ∃ c1 : Propagator.SpanContext,
      Propagator.Extract (Propagator.Inject c) = some c1
        ∧ c1.traceId = c.traceId
        ∧ c1.spanId = c.spanId
        ∧ c1.sampled = c.sampled
        ∧ c1.baggage = c.baggage
        ∧ c1 = { c with parentSpanId := none }
        ∧ (c.parentSpanId = none → c1 = c) := by
  obtain ⟨htrace, hspan, hnodup⟩ := hvalid
  have h1 : ¬ (Propagator.traceIdKey = Propagator.spanIdKey) := by decide
  have h2 : ¬ (Propagator.traceIdKey = Propagator.sampledKey) := by decide
  have h3 : ¬ (Propagator.spanIdKey = Propagator.sampledKey) := by decide
  have hbag : Propagator.baggageOf (Propagator.Inject c) = c.baggage := by
    rw [Propagator.inject_eq c hnodup]
    have := Propagator.baggageOf_marked c.baggage
    unfold Propagator.baggageOf at this ⊢
    rw [List.filterMap_append, this]
    rfl
  refine ⟨{ c with parentSpanId := none }, ?_, rfl, rfl, rfl, rfl, rfl, ?_⟩
  · unfold Propagator.Extract
    rw [hbag, Propagator.inject_eq c hnodup]
    simp only [List.cons_append, List.nil_append, Propagator.Carrier.get, if_true, h1, h2, h3,
      if_false]
    rw [Propagator.hexDecode_hexEncode 32 _ (by simpa using htrace),
      Propagator.hexDecode_hexEncode 16 _ (by simpa using hspan),
      Propagator.decodeSampled_encodeSampled]
  · intro hp
    cases c
    simp only at hp
    subst hp
    rfl

/-- C8 on a concrete context with a parent span id and two baggage items: it is
valid, and extracting what was injected gives back its trace id, span id,
sampled flag and baggage. -/
theorem Propagator.extract_inject_roundtrip_witness :
    Propagator.sampleContext.Valid
      ∧ (∃ c1 : Propagator.SpanContext,
          Propagator.Extract (Propagator.Inject Propagator.sampleContext) = some c1
            ∧ c1.traceId = Propagator.sampleContext.traceId
            ∧ c1.spanId = Propagator.sampleContext.spanId
            ∧ c1.sampled = Propagator.sampleContext.sampled
            ∧ c1.baggage = Propagator.sampleContext.baggage
            ∧ c1 = { Propagator.sampleContext with parentSpanId := none }
            ∧ (Propagator.sampleContext.parentSpanId = none → c1 = Propagator.sampleContext))
      ∧ Propagator.Inject Propagator.sampleContext
          = [("trace-id", "4bf92f3577b34da6a3ce929d0e0e4736"), ("span-id", "00f067aa0ba902b7"),
             ("sampled", "1"), ("baggage-name", "john"), ("baggage-tenant", "acme")] :=
  ⟨⟨by decide, by decide, by decide⟩,
   Propagator.extract_inject_roundtrip Propagator.sampleContext
     ⟨by decide, by decide, by decide⟩,
   by decide⟩
